import Mathlib

/-!
Shallow embedding of the `workspace-multiselect` Blockly plugin
(selection store, containment oracle, composite draggable, bulk commands)
together with proofs about the behaviour of the embedded operations.

Each definition carries a comment pointing to the source function it
translates (file and function name from the plugin's `src/` tree).
-/

namespace WorkspaceMultiselect

/-- Embedding of `Blockly.utils.Coordinate`: a pair of integer workspace
coordinates.  (The plugin only ever adds and subtracts coordinates.) -/
structure Coordinate where
  x : Int
  y : Int
deriving DecidableEq, Repr

/-- Embedding of `Blockly.utils.Coordinate.sum(a, b)`. -/
def Coordinate.sum (a b : Coordinate) : Coordinate :=
  ⟨a.x + b.x, a.y + b.y⟩

/-- Embedding of `Blockly.utils.Coordinate.difference(a, b)` (used only to
state translation properties). -/
def Coordinate.sub (a b : Coordinate) : Coordinate :=
  ⟨a.x - b.x, a.y - b.y⟩

/-- One ancestor of a selectable, as seen by the while-loop of
`hasSelectedParent` in `src/global.js`: its id and the id of the workspace
(surface) owning it (`block.workspace`). -/
structure Ancestor where
  id : String
  ws : String
deriving DecidableEq, Repr

/-- A per-surface selection store: maps a workspace id to the list of ids in
its drag-selection set (`dragSelectionWeakMap.get(ws)`, a JS `Set`). -/
def Selection : Type := String → List String

/-- Embedding of `dragSelectionWeakMap.get(block.workspace).has(block.id)`. -/
def selectionHas (sel : Selection) (ws id : String) : Bool :=
  (sel ws).contains id

/-- Embedding of the while-loop body of `hasSelectedParent`
(`src/global.js` lines 123-136): repeatedly step to the next ancestor and
return true the first time an ancestor is in its own workspace's selection
set.  The list is the chain of ancestors produced by the iterated
`getParent()` / `getSurroundParent()` calls, nearest ancestor first. -/
def walkSelectedChain (sel : Selection) : List Ancestor → Bool
  | [] => false
  | a :: rest =>
    if selectionHas sel a.ws a.id then true else walkSelectedChain sel rest

/-- A selectable object together with its two ancestor chains: the chain of
iterated `getParent()` calls (physical drag parent) and the chain of
iterated `getSurroundParent()` calls (logical surround parent), each listed
nearest ancestor first. -/
structure SelectableNode where
  id : String
  ws : String
  parentChain : List Ancestor
  surroundChain : List Ancestor
deriving Repr

/-- Embedding of `hasSelectedParent(block, move)` from `src/global.js`:
walk the `getParent()` chain when `move` is true, the `getSurroundParent()`
chain otherwise, returning true the first time an ancestor's id is in that
ancestor's workspace's selection set. -/
def hasSelectedParent (sel : Selection) (b : SelectableNode)
    (move : Bool := false) : Bool :=
  walkSelectedChain sel (if move then b.parentChain else b.surroundChain)

/-! ### Mode switch and workspace panning (`src/multiselect_controls.js`)

`enableMultiselect` / `disableMultiselect` manipulate three pieces of
state relevant to workspace panning:
`workspace.options.moveOptions.drag` (panning-by-drag flag),
`this.hasDisableWorkspaceDrag_` and
`inMultipleSelectionModeWeakMap.get(workspace)`. -/

/-- The panning-relevant state of one surface's `MultiselectControls`. -/
structure PanState where
  /-- `workspace.options.moveOptions.drag` -/
  drag : Bool
  /-- `this.hasDisableWorkspaceDrag_` -/
  hasDisableWorkspaceDrag : Bool
  /-- `inMultipleSelectionModeWeakMap.get(workspace)` -/
  inMultipleSelectionMode : Bool
deriving DecidableEq, Repr

/-- Embedding of the panning-relevant effect of
`MultiselectControls.enableMultiselect` (lines 435-443 and 511): disable
panning-by-drag, remembering it was enabled, then set the mode flag. -/
def enableMultiselect (s : PanState) : PanState :=
  let s1 :=
    if !s.hasDisableWorkspaceDrag && s.drag then
      { s with drag := false, hasDisableWorkspaceDrag := true }
    else s
  { s1 with inMultipleSelectionMode := true }

/-- Embedding of the panning-relevant effect of
`MultiselectControls.disableMultiselect` (lines 518-538): clear the mode
flag, then restore panning-by-drag exactly when it had been disabled by
`enableMultiselect`. -/
def disableMultiselect (s : PanState) : PanState :=
  let s1 := { s with inMultipleSelectionMode := false }
  if s1.hasDisableWorkspaceDrag then
    { s1 with drag := true, hasDisableWorkspaceDrag := false }
  else s1

/-- An enter/leave transition of the mode switch. -/
inductive ModeOp where
  | enter
  | leave
deriving DecidableEq, Repr

/-- Replay a sequence of enter/leave transitions. -/
def replayModeOps (ops : List ModeOp) (s : PanState) : PanState :=
  ops.foldl (fun s op =>
    match op with
    | ModeOp.enter => enableMultiselect s
    | ModeOp.leave => disableMultiselect s) s

/-- The initial state of a surface whose panning-by-drag flag is `d`:
`hasDisableWorkspaceDrag_` starts false (constructor, line 133) and the
mode flag starts false (`Multiselect` constructor). -/
def initPanState (d : Bool) : PanState :=
  { drag := d, hasDisableWorkspaceDrag := false, inMultipleSelectionMode := false }

/-- Embedding of `MultiselectDraggable.isMovable`
(`src/multiselect_draggable.js` lines 323-328): false while the
workspace's multi-select mode flag is set, true otherwise. -/
def MultiselectDraggable.isMovable (s : PanState) : Bool :=
  if s.inMultipleSelectionMode then false else true

/-! ### Selection toggling (`MultiselectControls.updateDraggables_`,
`src/multiselect_controls.js` lines 322-359) -/

/-- The capability data `updateDraggables_` queries on its argument. -/
structure DraggableItem where
  id : String
  /-- `draggable instanceof Blockly.BlockSvg` -/
  isBlock : Bool
  /-- `draggable.isDeletable()` -/
  deletable : Bool
  /-- `draggable.isMovable()` -/
  movable : Bool
  /-- `draggable.isShadow()` (blocks only) -/
  shadow : Bool
  /-- `draggable.type` (blocks only) -/
  btype : String
deriving DecidableEq, Repr

/-- The selection-relevant state of one surface's `MultiselectControls`:
the drag-selection id set (a JS `Set`, kept as an insertion-ordered
duplicate-free list), the id set of the `MultiselectDraggable`'s
`subDraggables` map, and `this.justUnselectedBlock_`. -/
structure ControlsState where
  dragSelection : List String
  subDraggables : List String
  justUnselectedBlock : Option String
deriving DecidableEq, Repr

/-- JS `Set.add`: append the element when absent (the plugin only calls it
after a negative `has` check, so the guard is redundant but harmless). -/
def jsSetAdd (l : List String) (x : String) : List String :=
  if x ∈ l then l else l ++ [x]

/-- JS `Set.delete` / `Map.delete` keyed by id: remove the occurrence. -/
def jsSetDelete (l : List String) (x : String) : List String :=
  l.erase x

/-- Embedding of `MultiselectControls.updateDraggables_`
(`src/multiselect_controls.js` lines 322-359).  A null draggable is a
no-op; a block lacking both capabilities, a shadow block, or a
`drag_to_dupe` block is a no-op; a non-block lacking both capabilities is
a no-op; otherwise membership of the id is flipped in the drag selection
and mirrored into the composite's `subDraggables`
(highlight side effects are not part of the state). -/
def updateDraggables (s : ControlsState) (d : Option DraggableItem) :
    ControlsState :=
  match d with
  | none => s
  | some d =>
    if d.isBlock then
      if !((d.deletable || d.movable) && !d.shadow) ||
          d.btype == "drag_to_dupe" then s
      else if d.id ∈ s.dragSelection then
        { dragSelection := jsSetDelete s.dragSelection d.id
          subDraggables := jsSetDelete s.subDraggables d.id
          justUnselectedBlock := some d.id }
      else
        { dragSelection := jsSetAdd s.dragSelection d.id
          subDraggables := jsSetAdd s.subDraggables d.id
          justUnselectedBlock := none }
    else
      if !(d.movable || d.deletable) then s
      else if d.id ∈ s.dragSelection then
        { s with dragSelection := jsSetDelete s.dragSelection d.id
                 subDraggables := jsSetDelete s.subDraggables d.id }
      else
        { s with dragSelection := jsSetAdd s.dragSelection d.id
                 subDraggables := jsSetAdd s.subDraggables d.id }

/-- Replay a sequence of `updateDraggables_` calls. -/
def replayToggles (s : ControlsState) (ds : List DraggableItem) : ControlsState :=
  ds.foldl (fun s d => updateDraggables s (some d)) s

/-- A draggable that passes the capability filter of `updateDraggables_`,
so that the call actually toggles (matches the early-return guards of the
source). -/
def capabilityPassing (d : DraggableItem) : Bool :=
  if d.isBlock then
    (d.deletable || d.movable) && !d.shadow && !(d.btype == "drag_to_dupe")
  else
    d.movable || d.deletable

/-- Specification-side toggle semantics, written from the spec's words
("toggle = add the identifier if absent, remove it if present", i.e.
symmetric difference with a singleton), to be compared with the
source-derived `updateDraggables`. -/
def specToggle (t : Finset String) (id : String) : Finset String :=
  symmDiff t {id}

/-- Specification-side replay of toggles over identifiers. -/
def specToggleReplay (t : Finset String) (ids : List String) : Finset String :=
  ids.foldl specToggle t

/-! ### Composite drag (`MultiselectDraggable`,
`src/multiselect_draggable.js`) -/

/-- A member of the composite draggable as seen by `startDrag` / `drag`:
its identity, whether it is a `BlockSvg`, its shadow flag, its iterated
`getParent()` ancestor chain, whether its immediate parent's
`getNextBlock()` is this very block (used for same-level connection
recording), and its absolute position `getRelativeToSurfaceXY()` at the
time `startDrag` runs. -/
structure DragMember where
  id : String
  isBlock : Bool
  shadow : Bool
  parentChain : List Ancestor
  /-- `parentBlock.getNextBlock() === draggable` for the immediate parent -/
  parentNextIsSelf : Bool
  pos : Coordinate
deriving DecidableEq, Repr

/-- The state of a `MultiselectDraggable` that the drag methods read and
write: the `subDraggables` insertion-ordered map (member, position
snapshot), the `topSubDraggables` list, the recorded same-level
`connectionDBList` (as pairs of parent id and child id), the composite's
own `loc` (set to `(0,0)` by the constructor and never moved) and the
`inGroup` flag. -/
structure MDragState where
  subDraggables : List (DragMember × Coordinate)
  topSubDraggables : List DragMember
  connectionDBList : List (String × String)
  loc : Coordinate
  inGroup : Bool
deriving Repr

/-- The ids of the current members (`this.subDraggables.has`). -/
def MDragState.memberIds (s : MDragState) : List String :=
  s.subDraggables.map (fun p => p.1.id)

/-- Embedding of `MultiselectDraggable.startDrag`
(`src/multiselect_draggable.js` lines 346-382).  For every member:
blocks without a selected physical parent, and all non-block members,
are appended to `topSubDraggables`; for every non-shadow block whose
immediate parent is itself a member and whose parent's next block is this
block, the same-level connection pair is recorded; and the member's
position snapshot is refreshed to its current
`getRelativeToSurfaceXY()`.  `grp` is `Blockly.Events.getGroup()` at
entry.  The final per-member `startDrag` forwarding does not change this
state. -/
def MDragState.startDrag (sel : Selection) (grp : Bool) (s : MDragState) :
    MDragState :=
  let tops := s.subDraggables.filterMap (fun p =>
    if p.1.isBlock then
      if walkSelectedChain sel p.1.parentChain then none else some p.1
    else some p.1)
  let conns := s.subDraggables.filterMap (fun p =>
    if p.1.isBlock && !p.1.shadow then
      match p.1.parentChain.head? with
      | some parent =>
        if (s.memberIds).contains parent.id && p.1.parentNextIsSelf then
          some (parent.id, p.1.id)
        else none
      | none => none
    else none)
  { s with
    inGroup := grp
    topSubDraggables := s.topSubDraggables ++ tops
    connectionDBList := s.connectionDBList ++ conns
    subDraggables := s.subDraggables.map (fun p => (p.1, p.1.pos)) }

/-- Embedding of `MultiselectDraggable.drag(newLoc)`
(`src/multiselect_draggable.js` lines 392-404): for every member of
`topSubDraggables` whose snapshot is present in the `subDraggables` map,
forward `draggable.drag(Coordinate.sum(newLoc, snapshot))`.  The result is
the list of forwarded calls (member, drag target). -/
def MDragState.drag (s : MDragState) (newLoc : Coordinate) :
    List (DragMember × Coordinate) :=
  s.topSubDraggables.filterMap (fun d =>
    match s.subDraggables.find? (fun p => p.1.id == d.id) with
    | some p => some (d, Coordinate.sum newLoc p.2)
    | none => none)

/-- Embedding of the state effect of `MultiselectDraggable.endDrag`
(`src/multiselect_draggable.js` lines 412-436): after forwarding
`endDrag` to the top members, refresh every snapshot to the member's
current position (`posNow`, indexed by member id), reconnect the recorded
same-level pairs (returned to the host, not part of this state), and
clear `topSubDraggables` and `connectionDBList`. -/
def MDragState.endDrag (posNow : String → Coordinate) (s : MDragState) :
    MDragState :=
  { s with
    subDraggables := s.subDraggables.map (fun p => (p.1, posNow p.1.id))
    topSubDraggables := []
    connectionDBList := [] }

/-- Host drag semantics for attached children (Blockly `BlockSvg.drag`):
when a top-level member whose snapshot position is `topStart` is dragged
to `topTarget`, a block attached below or inside it that started at
`childStart` moves rigidly with it. -/
def hostAttachedPos (childStart topStart topTarget : Coordinate) : Coordinate :=
  Coordinate.sum childStart (Coordinate.sub topTarget topStart)

/-- The new absolute position the host hands to
`MultiselectDraggable.drag` after the pointer has moved by `delta`: the
draggable's own start location (`this.loc`) plus the pointer delta. -/
def hostNewLoc (s : MDragState) (delta : Coordinate) : Coordinate :=
  Coordinate.sum s.loc delta

/-! ### Bulk delete (`registerDelete` in `src/multiselect_contextmenu.js`
and `registerShortcutDelete` in the shortcut module) -/

/-- A delete candidate as queried by the delete `check`/`apply` closures:
identity, whether it is a `BlockSvg` (as opposed to a workspace comment),
`block.outputConnection` presence, `isDeletable()`, `isInFlyout`,
`block.workspace.isFlyout`, and the iterated `getSurroundParent()` chain
(`hasSelectedParent` is called with its default `move = false` here). -/
structure DeleteCandidate where
  id : String
  isBlock : Bool
  outputConnection : Bool
  deletable : Bool
  isInFlyout : Bool
  wsIsFlyout : Bool
  surroundChain : List Ancestor
deriving DecidableEq, Repr

/-- A disposal request forwarded to the host. -/
inductive Disposal where
  /-- `block.dispose(healStack, animate)` -/
  | blockDispose (id : String) (healStack : Bool) (animate : Bool)
  /-- `element.dispose()` on a non-block (workspace comment) -/
  | plainDispose (id : String)
deriving DecidableEq, Repr

/-- Embedding of `deleteOption.preconditionFn`
(`src/multiselect_contextmenu.js` lines 633-638). -/
def deletePrecondition (b : DeleteCandidate) : Bool :=
  !b.isInFlyout && b.deletable

/-- Embedding of `deleteOption.check`
(`src/multiselect_contextmenu.js` lines 639-643). -/
def deleteCheck (sel : Selection) (b : DeleteCandidate) : Bool :=
  !b.wsIsFlyout && deletePrecondition b && !walkSelectedChain sel b.surroundChain

/-- Embedding of the `apply` closure inside `deleteOption.callback`
(`src/multiselect_contextmenu.js` lines 644-654): when the check passes,
dispose with `dispose(false, true)` if the block has an output connection
and `dispose(true, true)` otherwise.  Returns the disposal request made,
if any. -/
def deleteApply (sel : Selection) (b : DeleteCandidate) : Option Disposal :=
  if deleteCheck sel b then
    some (if b.outputConnection then Disposal.blockDispose b.id false true
          else Disposal.blockDispose b.id true true)
  else none

/-- Embedding of the `MultiselectDraggable` branch of
`deleteOption.callback` (`src/multiselect_contextmenu.js` lines 660-669):
for each sub-draggable, unselect it and, when it is a `BlockSvg`, run
`apply`.  Returns the list of disposal requests. -/
def deleteCallbackCalls (sel : Selection) (subs : List DeleteCandidate) :
    List Disposal :=
  subs.filterMap (fun b => if b.isBlock then deleteApply sel b else none)

/-- Embedding of `deleteShortcut.check` from `registerShortcutDelete`
(shortcut module, lines 44-54): blocks need deletable, a non-flyout
workspace, and no selected surround parent; comments only need
deletable. -/
def shortcutDeleteCheck (sel : Selection) (b : DeleteCandidate) : Bool :=
  if b.isBlock then
    b.deletable && !b.wsIsFlyout && !walkSelectedChain sel b.surroundChain
  else
    b.deletable

/-- Embedding of the `apply` closure inside `deleteShortcut.callback`
(shortcut module, lines 62-75): blocks with an output connection are
disposed with `dispose(false, true)`, other blocks with
`dispose(true, true)`, non-blocks with a plain `dispose()`. -/
def shortcutDeleteApply (sel : Selection) (b : DeleteCandidate) :
    Option Disposal :=
  if shortcutDeleteCheck sel b then
    some (if b.isBlock then
            (if b.outputConnection then Disposal.blockDispose b.id false true
             else Disposal.blockDispose b.id true true)
          else Disposal.plainDispose b.id)
  else none

/-! ### Composite `revertDrag` and `dispose`
(`src/multiselect_draggable.js` lines 441-445 and 508-528) -/

/-- A member as seen by `revertDrag` / `dispose`: identity, kind,
deletability, whether it has been disposed, its current position and its
pre-drag position. -/
structure CompMember where
  id : String
  isBlock : Bool
  deletable : Bool
  disposed : Bool
  pos : Coordinate
  preDragPos : Coordinate
deriving DecidableEq, Repr

/-- Host semantics of a member's own `revertDrag`: a live member is moved
back to its pre-drag position; on a member that has been disposed the
call fails (its rendering state is gone), which is the failure mode the
spec's cancellation clause is about. -/
def memberRevertDrag (m : CompMember) : Except String CompMember :=
  if m.disposed then Except.error "revertDrag on disposed member"
  else Except.ok { m with pos := m.preDragPos }

/-- Embedding of `MultiselectDraggable.revertDrag`
(`src/multiselect_draggable.js` lines 441-445): forward `revertDrag` to
every entry of `subDraggables`, in order, with no guard of any kind; a
member whose own revert fails propagates the failure and stops the
loop. -/
def compositeRevertDrag : List CompMember → Except String (List CompMember)
  | [] => Except.ok []
  | m :: rest =>
    match memberRevertDrag m with
    | Except.ok m2 =>
      match compositeRevertDrag rest with
      | Except.ok rest2 => Except.ok (m2 :: rest2)
      | Except.error e => Except.error e
    | Except.error e => Except.error e

/-- Embedding of `MultiselectDraggable.dispose`
(`src/multiselect_draggable.js` lines 508-528): walk `subDraggables`;
skip (`continue`) members that are not deletable, leaving them in the
map; otherwise remove the member from the map, delete its id from the
drag selection, and dispose it (`dispose(true, true)` for blocks, plain
`dispose()` otherwise).  Returns the remaining map, the remaining drag
selection and the list of disposal requests. -/
def compositeDispose :
    List CompMember → List String → List CompMember × List String × List Disposal
  | [], sel => ([], sel, [])
  | m :: rest, sel =>
    if !m.deletable then
      let r := compositeDispose rest sel
      (m :: r.1, r.2.1, r.2.2)
    else
      let r := compositeDispose rest (jsSetDelete sel m.id)
      (r.1, r.2.1,
        (if m.isBlock then Disposal.blockDispose m.id true true
         else Disposal.plainDispose m.id) :: r.2.2)

/-! ### Multi-field propagation (`Multiselect.eventListener_`,
`src/multiselect.js` lines 824-858) -/

/-- A block as seen by the field-propagation listener: identity, concrete
type tag, and its named fields. -/
structure FieldBlock where
  id : String
  btype : String
  fields : List (String × String)
deriving DecidableEq, Repr

/-- Embedding of `workspace.getBlockById(id)` over the listener's
workspace model. -/
def getBlockById (ws : List FieldBlock) (id : String) : Option FieldBlock :=
  ws.find? (fun b => b.id == id)

/-- Host semantics of `block.setFieldValue(newValue, name)`: update the
named field; throw (modelled as `Except.error`) when the block has no
field of that name, as Blockly does. -/
def setFieldValue (b : FieldBlock) (newValue fieldName : String) :
    Except String FieldBlock :=
  if b.fields.any (fun p => p.1 == fieldName) then
    let fs := b.fields.map (fun p => if p.1 == fieldName then (p.1, newValue) else p)
    Except.ok { b with fields := fs }
  else Except.error "field not found"

/-- Replace the block with the same id in the workspace model. -/
def updateBlock (ws : List FieldBlock) (b : FieldBlock) : List FieldBlock :=
  ws.map (fun c => if c.id == b.id then b else c)

/-- Embedding of the `dragSelection_.forEach` loop inside
`Multiselect.eventListener_` (`src/multiselect.js` lines 840-848),
including its exception behaviour: the originating block is skipped,
absent blocks are skipped (`if (block && ...)`), blocks of a different
type are skipped, and a throwing `setFieldValue` aborts the remainder of
the loop (the `try` wraps the whole loop).  Returns the workspace and
whether an exception escaped the loop (to be caught and logged by the
surrounding `catch`). -/
def propagateLoop (origId ty fieldName newValue : String) :
    List String → List FieldBlock → List FieldBlock × Bool
  | [], ws => (ws, false)
  | id :: rest, ws =>
    if id == origId then propagateLoop origId ty fieldName newValue rest ws
    else
      match getBlockById ws id with
      | none => propagateLoop origId ty fieldName newValue rest ws
      | some b =>
        if b.btype == ty then
          match setFieldValue b newValue fieldName with
          | Except.ok b2 =>
            propagateLoop origId ty fieldName newValue rest (updateBlock ws b2)
          | Except.error _ => (ws, true)
        else propagateLoop origId ty fieldName newValue rest ws

/-- A Blockly change event as read by `eventListener_`. -/
structure ChangeEvent where
  blockId : String
  etype : String
  element : String
  name : String
  newValue : String
  recordUndo : Bool
  group : String
deriving DecidableEq, Repr

/-- The listener's state: the workspace model, the drag selection, the
`multiFieldUpdate_` option and the current `Blockly.Events` group. -/
structure ListenerState where
  workspace : List FieldBlock
  dragSelection : List String
  multiFieldUpdate : Bool
  eventsGroup : Option String
deriving DecidableEq, Repr

/-- Embedding of the entry condition of `Multiselect.eventListener_`
(`src/multiselect.js` lines 826-830). -/
def eventListenerGuard (s : ListenerState) (e : ChangeEvent) : Bool :=
  s.multiFieldUpdate && s.dragSelection.contains e.blockId &&
    ((e.etype == "change" && e.element == "field" && e.recordUndo &&
        e.group == "") ||
      e.etype == "block_field_intermediate_change")

/-- The observable result of one `eventListener_` call: the workspace
afterwards, whether `console.warn` ran (an exception was caught), the
event group in effect during propagation, the group after the `finally`
restore, and the originating event's `group` field afterwards. -/
structure ListenerResult where
  workspace : List FieldBlock
  warned : Bool
  groupDuring : Option String
  groupAfter : Option String
  eventGroup : String
deriving DecidableEq, Repr

/-- Embedding of `Multiselect.eventListener_` (`src/multiselect.js` lines
824-858).  When the guard passes: remember the current group; when there
is none, open a fresh group (`freshGroup`) and stamp it onto the event;
inside `try`, read the originating block's type (a missing originating
block throws and is caught) and run the propagation loop; `catch` logs the
warning; `finally` restores the prior group. -/
def eventListener (freshGroup : String) (s : ListenerState) (e : ChangeEvent) :
    ListenerResult :=
  if eventListenerGuard s e then
    let currentGroup := s.eventsGroup
    let gDuring : Option String :=
      match currentGroup with
      | none => some freshGroup
      | some g => some g
    let eGroup : String :=
      match currentGroup with
      | none => freshGroup
      | some _ => e.group
    match getBlockById s.workspace e.blockId with
    | none =>
      { workspace := s.workspace, warned := true, groupDuring := gDuring
        groupAfter := currentGroup, eventGroup := eGroup }
    | some b =>
      let r := propagateLoop e.blockId b.btype e.name e.newValue
        s.dragSelection s.workspace
      { workspace := r.1, warned := r.2, groupDuring := gDuring
        groupAfter := currentGroup, eventGroup := eGroup }
  else
    { workspace := s.workspace, warned := false, groupDuring := none
      groupAfter := s.eventsGroup, eventGroup := e.group }

/-! ### Paste (`registerPaste` in `src/multiselect_contextmenu.js`,
lines 714-782) -/

/-- One clipboard snapshot (`data = JSON.parse(stringData)`): whether it
is a block snapshot (`data.blockState`) or a comment snapshot
(`data.commentState`), the serialized id, the block type, whether
`data.typeCounts` is present (block snapshots carry it), the optional
`data.source` workspace, and — for stating the spec's claim — the
workspace that produced the snapshot. -/
structure PasteSnapshot where
  isBlock : Bool
  stateId : String
  btype : String
  hasTypeCounts : Bool
  source : Option String
  producedBy : String
deriving DecidableEq, Repr

/-- The host environment the paste callback queries: the main workspace
id, flyout-ness per workspace, `targetWorkspace` per flyout workspace,
`isCapacityAvailable` per workspace and type, and the id the generator
`genUid()` would return. -/
structure PasteEnv where
  mainWs : String
  isFlyout : String → Bool
  targetWs : String → String
  capacityOk : String → String → Bool
  freshId : String

/-- What happened to one snapshot during paste. -/
inductive PasteOutcome where
  /-- block pasted into `ws` with final id `id`; `added` records whether
  it was added to the drag selection and the composite
  (`element.type !== 'drag_to_dupe'`) -/
  | pastedBlock (ws id : String) (added : Bool)
  /-- comment pasted into `ws` with final id `id` (always selected and
  added) -/
  | pastedComment (ws id : String)
  /-- snapshot skipped -/
  | rejected
deriving DecidableEq, Repr

/-- The id carried by the pasted element, if any. -/
def PasteOutcome.newId : PasteOutcome → Option String
  | PasteOutcome.pastedBlock _ i _ => some i
  | PasteOutcome.pastedComment _ i => some i
  | PasteOutcome.rejected => none

/-- Embedding of the fresh-id step of `pasteOption.callback`
(`src/multiselect_contextmenu.js` lines 740-748): the serialized state
gets a fresh id exactly when the workspace the menu was invoked on is not
the main workspace. -/
def pasteSnapshotId (env : PasteEnv) (scopeWs : String)
    (snap : PasteSnapshot) : String :=
  if scopeWs == env.mainWs then snap.stateId else env.freshId

/-- Embedding of the destination-workspace step of
`pasteOption.callback` (`src/multiselect_contextmenu.js` lines 750-755):
redirect to `data.source` when present, then to `targetWorkspace` when
the workspace is a flyout. -/
def pasteDestWs (env : PasteEnv) (scopeWs : String)
    (snap : PasteSnapshot) : String :=
  let ws1 := match snap.source with
    | some s => s
    | none => scopeWs
  if env.isFlyout ws1 then env.targetWs ws1 else ws1

/-- Embedding of the per-snapshot body of `pasteOption.callback`
(`src/multiselect_contextmenu.js` lines 735-774): a snapshot with
`typeCounts` is pasted only when the destination has capacity for it
(and is added to the drag selection and the composite unless its type is
`drag_to_dupe`); otherwise a comment snapshot is always pasted, selected
and added; anything else is skipped. -/
def pasteOne (env : PasteEnv) (scopeWs : String) (snap : PasteSnapshot) :
    PasteOutcome :=
  if snap.hasTypeCounts
      && env.capacityOk (pasteDestWs env scopeWs snap) snap.btype then
    PasteOutcome.pastedBlock (pasteDestWs env scopeWs snap)
      (pasteSnapshotId env scopeWs snap) (!(snap.btype == "drag_to_dupe"))
  else if !snap.isBlock then
    PasteOutcome.pastedComment (pasteDestWs env scopeWs snap)
      (pasteSnapshotId env scopeWs snap)
  else PasteOutcome.rejected

/-- Embedding of the selection-clearing prologue of
`pasteOption.callback` (`src/multiselect_contextmenu.js` lines 722-729):
when the drag selection is non-empty, every member is unselected and the
selection and the composite are cleared. -/
def pasteClearStep (sel : List String) : List String :=
  if sel.isEmpty then sel else []

/-- The observable result of `pasteOption.callback`: the drag selection
after the clearing prologue, the per-snapshot outcomes, and whether the
host's native selection was set to the composite at the end
(`Blockly.common.setSelected(multiDraggable)`, line 780 — always). -/
structure PasteResult where
  clearedSelection : List String
  outcomes : List PasteOutcome
  selectedComposite : Bool
deriving DecidableEq, Repr

/-- Embedding of `pasteOption.callback` as a whole. -/
def pasteCallback (env : PasteEnv) (scopeWs : String) (sel : List String)
    (snaps : List PasteSnapshot) : PasteResult :=
  { clearedSelection := pasteClearStep sel
    outcomes := snaps.map (pasteOne env scopeWs)
    selectedComposite := true }

/-! ### Statement-level helpers and concrete sample inputs -/

/-- The invariant relating a surface's pan state to its original
panning-by-drag flag `d0`: while `hasDisableWorkspaceDrag_` is set the
original flag was true and panning is off; while it is clear the panning
flag equals the original; and panning is off whenever multi-select mode
is active. -/
def panInv (d0 : Bool) (s : PanState) : Prop :=
  (s.hasDisableWorkspaceDrag = true → d0 = true ∧ s.drag = false) ∧
  (s.hasDisableWorkspaceDrag = false → s.drag = d0) ∧
  (s.inMultipleSelectionMode = true → s.drag = false)

/-- Value of a named field of the block with the given id, for stating
propagation results. -/
def fieldValueOf (ws : List FieldBlock) (id fname : String) : Option String :=
  match getBlockById ws id with
  | some b => (b.fields.find? (fun p => p.1 == fname)).map (fun p => p.2)
  | none => none

/-- A selection with block `p1` selected on surface `w1`. -/
def c3sel : Selection := fun ws => if ws == "w1" then ["p1"] else []

/-- A selectable on `w1` whose physical parent chain is `[p1]` and whose
surround chain is empty. -/
def c3node : SelectableNode :=
  { id := "b0", ws := "w1", parentChain := [⟨"p1", "w1"⟩], surroundChain := [] }

/-- An empty selection (no surface has anything selected). -/
def emptySel : Selection := fun _ => []

/-- A deletable, surviving, output-style block (it has an output
connection), outside any flyout, with no selected surround parent. -/
def cexDeleteBlock : DeleteCandidate :=
  { id := "b1", isBlock := true, outputConnection := true, deletable := true
    isInFlyout := false, wsIsFlyout := false, surroundChain := [] }

/-- A statement-style block in the same situation. -/
def smpStatementBlock : DeleteCandidate :=
  { id := "b2", isBlock := true, outputConnection := false, deletable := true
    isInFlyout := false, wsIsFlyout := false, surroundChain := [] }

/-- Workspace for the field-propagation counterexample: the originating
block `x` and member `z` have field `f`, member `y` (same type `T`) lacks
it, so `setFieldValue` on `y` throws mid-loop. -/
def cexFieldWs : List FieldBlock :=
  [ { id := "x", btype := "T", fields := [("f", "old")] }
  , { id := "y", btype := "T", fields := [] }
  , { id := "z", btype := "T", fields := [("f", "old")] } ]

/-- Listener state for the field-propagation counterexample. -/
def cexFieldState : ListenerState :=
  { workspace := cexFieldWs, dragSelection := ["x", "y", "z"]
    multiFieldUpdate := true, eventsGroup := none }

/-- The originating undo-recorded field change on block `x`. -/
def cexFieldEvent : ChangeEvent :=
  { blockId := "x", etype := "change", element := "field", name := "f"
    newValue := "new", recordUndo := true, group := "" }

/-- Workspace for the field-propagation witness: members `x` and `y` of
type `T` with field `f`, member `u` of a different type `U`. -/
def smpFieldWs : List FieldBlock :=
  [ { id := "x", btype := "T", fields := [("f", "old")] }
  , { id := "y", btype := "T", fields := [("f", "old")] }
  , { id := "u", btype := "U", fields := [("f", "old")] } ]

/-- Listener state for the field-propagation witness. -/
def smpFieldState : ListenerState :=
  { workspace := smpFieldWs, dragSelection := ["x", "y", "u"]
    multiFieldUpdate := true, eventsGroup := none }

/-- Paste environment: main workspace `main`, no flyouts, unlimited
capacity, and a known fresh id. -/
def cexPasteEnv : PasteEnv :=
  { mainWs := "main", isFlyout := fun _ => false, targetWs := fun w => w
    capacityOk := fun _ _ => true, freshId := "fresh1" }

/-- A block snapshot produced on surface `A` (cross-tab payload, so no
`source` field survives serialization). -/
def cexPasteSnap : PasteSnapshot :=
  { isBlock := true, stateId := "b1", btype := "T", hasTypeCounts := true
    source := none, producedBy := "A" }

/-- Composite members for the revert counterexample: a live member
followed by a member disposed mid-drag. -/
def cexRevertMembers : List CompMember :=
  [ { id := "m1", isBlock := true, deletable := true, disposed := false
      pos := ⟨1, 1⟩, preDragPos := ⟨0, 0⟩ }
  , { id := "m2", isBlock := true, deletable := true, disposed := true
      pos := ⟨5, 5⟩, preDragPos := ⟨4, 4⟩ } ]

/-- A single live composite member, for the revert witness. -/
def smpRevertMembers : List CompMember :=
  [ { id := "m1", isBlock := true, deletable := true, disposed := false
      pos := ⟨1, 1⟩, preDragPos := ⟨0, 0⟩ } ]

/-- A composite holding one member that is not individually deletable. -/
def cexDisposeMembers : List CompMember :=
  [ { id := "a", isBlock := true, deletable := false, disposed := false
      pos := ⟨0, 0⟩, preDragPos := ⟨0, 0⟩ } ]

/-- A composite holding one deletable block member. -/
def smpDisposeMembers : List CompMember :=
  [ { id := "a", isBlock := true, deletable := true, disposed := false
      pos := ⟨0, 0⟩, preDragPos := ⟨0, 0⟩ } ]

/-- Selection for the composite-drag witness: blocks `p`, `c`, `s` are
selected on surface `w`. -/
def c1sel : Selection := fun ws => if ws == "w" then ["p", "c", "s"] else []

/-- Top-level parent `p` at the origin (no ancestors). -/
def c1memP : DragMember :=
  { id := "p", isBlock := true, shadow := false, parentChain := []
    parentNextIsSelf := false, pos := ⟨0, 0⟩ }

/-- Stack child `c` of `p` (physically parented by the selected `p`). -/
def c1memC : DragMember :=
  { id := "c", isBlock := true, shadow := false
    parentChain := [⟨"p", "w"⟩], parentNextIsSelf := true, pos := ⟨2, 3⟩ }

/-- Independent sibling block `s` (no ancestors). -/
def c1memS : DragMember :=
  { id := "s", isBlock := true, shadow := false, parentChain := []
    parentNextIsSelf := false, pos := ⟨10, 0⟩ }

/-- Composite-drag state before the gesture: three members with stale
snapshots, empty `topSubDraggables`, origin `loc`. -/
def c1state : MDragState :=
  { subDraggables := [(c1memP, ⟨9, 9⟩), (c1memC, ⟨9, 9⟩), (c1memS, ⟨9, 9⟩)]
    topSubDraggables := [], connectionDBList := [], loc := ⟨0, 0⟩
    inGroup := false }

/-- An empty controls state. -/
def smpCtl : ControlsState :=
  { dragSelection := [], subDraggables := [], justUnselectedBlock := none }

/-- A capability-passing block draggable with id `a`. -/
def smpTogA : DraggableItem :=
  { id := "a", isBlock := true, deletable := true, movable := true
    shadow := false, btype := "T" }

/-- A capability-passing comment draggable with id `b`. -/
def smpTogB : DraggableItem :=
  { id := "b", isBlock := false, deletable := false, movable := true
    shadow := false, btype := "" }

/-- Specification-side description of a completed propagation, written
from the spec's words: every selected member other than the originator
that has the same concrete type (and carries the named field) holds the
new value; every other block is untouched.  To be compared with the
workspace the source-derived `eventListener` produces. -/
def propagatedWorkspace (origId ty fieldName newValue : String)
    (selIds : List String) (ws : List FieldBlock) : List FieldBlock :=
  ws.map (fun b =>
    if !(b.id == origId) && selIds.contains b.id && (b.btype == ty)
        && b.fields.any (fun p => p.1 == fieldName) then
      { b with fields :=
          b.fields.map (fun p =>
            if p.1 == fieldName then (p.1, newValue) else p) }
    else b)

end WorkspaceMultiselect

namespace WorkspaceMultiselect

/-- The ancestor walk returns true exactly when some chain entry is in its
own surface's selection set. -/
theorem walkSelectedChain_iff (sel : Selection) (chain : List Ancestor) :
    walkSelectedChain sel chain = true ↔ ∃ a ∈ chain, a.id ∈ sel a.ws := by
  induction chain with
  | nil => simp [walkSelectedChain]
  | cons a rest ih =>
    by_cases h : a.id ∈ sel a.ws
    · simp [walkSelectedChain, selectionHas, List.elem_iff, h]
    · simp [walkSelectedChain, selectionHas, List.elem_iff, h, ih]

/-- C3: `hasSelectedParent(selectable, useMoveParent)` walks the physical
drag-parent chain when `useMoveParent` is true and the logical
surround-parent chain otherwise, and returns true iff some ancestor's
identifier is present in that ancestor's surface's selection set; in
particular it returns false for any object with no ancestors. -/
theorem C3_hasSelectedParent_correct (sel : Selection) (b : SelectableNode)
    (move : Bool) :
    (hasSelectedParent sel b move = true ↔
      ∃ a ∈ (if move then b.parentChain else b.surroundChain), a.id ∈ sel a.ws)
    ∧ ((if move then b.parentChain else b.surroundChain) = [] →
      hasSelectedParent sel b move = false) := by
  constructor
  · simpa [hasSelectedParent] using
      walkSelectedChain_iff sel (if move then b.parentChain else b.surroundChain)
  · intro h
    simp [hasSelectedParent, h, walkSelectedChain]

/-- Witness for C3 at a concrete selection and node. -/
theorem C3_hasSelectedParent_correct_witness :
    hasSelectedParent c3sel c3node true = true
    ∧ hasSelectedParent c3sel c3node false = false :=
  ⟨(C3_hasSelectedParent_correct c3sel c3node true).1.mpr
      ⟨⟨"p1", "w1"⟩, by decide, by decide⟩,
    (C3_hasSelectedParent_correct c3sel c3node false).2 (by decide)⟩

/-- C10: `MultiselectDraggable.isMovable()` returns false exactly while
its workspace's multi-select mode flag is set and true otherwise. -/
theorem C10_isMovable_iff_mode (s : PanState) :
    (MultiselectDraggable.isMovable s = false ↔ s.inMultipleSelectionMode = true)
    ∧ (MultiselectDraggable.isMovable s = true ↔ s.inMultipleSelectionMode = false) := by
  cases s with
  | mk d hd m => cases m <;> simp [MultiselectDraggable.isMovable]

/-- Witness for C10 on a concrete state. -/
theorem C10_isMovable_iff_mode_witness :
    MultiselectDraggable.isMovable (initPanState true) = true :=
  (C10_isMovable_iff_mode (initPanState true)).2.mpr rfl

/-- The pan-state invariant holds initially. -/
theorem panInv_init (d0 : Bool) : panInv d0 (initPanState d0) := by
  cases d0 <;> simp [panInv, initPanState]

/-- `enableMultiselect` preserves the pan-state invariant. -/
theorem panInv_enable {d0 : Bool} {s : PanState} (h : panInv d0 s) :
    panInv d0 (enableMultiselect s) := by
  obtain ⟨h1, h2, h3⟩ := h
  cases s with
  | mk d hd m =>
    cases d <;> cases hd <;> cases d0 <;>
      simp_all [panInv, enableMultiselect]

/-- `disableMultiselect` preserves the pan-state invariant. -/
theorem panInv_disable {d0 : Bool} {s : PanState} (h : panInv d0 s) :
    panInv d0 (disableMultiselect s) := by
  obtain ⟨h1, h2, h3⟩ := h
  cases s with
  | mk d hd m =>
    cases d <;> cases hd <;> cases d0 <;>
      simp_all [panInv, disableMultiselect]

/-- Replaying any sequence of mode transitions preserves the pan-state
invariant. -/
theorem panInv_replay (d0 : Bool) (ops : List ModeOp) (s : PanState)
    (h : panInv d0 s) : panInv d0 (replayModeOps ops s) := by
  induction ops generalizing s with
  | nil => simpa [replayModeOps] using h
  | cons op rest ih =>
    cases op with
    | enter => simpa [replayModeOps] using ih (enableMultiselect s) (panInv_enable h)
    | leave => simpa [replayModeOps] using ih (disableMultiselect s) (panInv_disable h)

/-- `disableMultiselect` always clears `hasDisableWorkspaceDrag_`. -/
theorem disable_clears_flag (s : PanState) :
    (disableMultiselect s).hasDisableWorkspaceDrag = false := by
  cases s with
  | mk d hd m => cases hd <;> simp [disableMultiselect]

/-- C8: entering multi-select mode with panning-by-drag enabled disables
panning and leaving restores it; after any sequence of enter/leave
transitions followed by a leave, the surface's original panning flag is
restored exactly; and while the mode is active the panning flag is
false. -/
theorem C8_pan_restore (d0 : Bool) (ops : List ModeOp) :
    (enableMultiselect (initPanState true)).drag = false
    ∧ (disableMultiselect (enableMultiselect (initPanState true))).drag = true
    ∧ ((replayModeOps ops (initPanState d0)).inMultipleSelectionMode = true →
        (replayModeOps ops (initPanState d0)).drag = false)
    ∧ (replayModeOps (ops ++ [ModeOp.leave]) (initPanState d0)).drag = d0 := by
  have hinv := panInv_replay d0 ops (initPanState d0) (panInv_init d0)
  refine ⟨by decide, by decide, hinv.2.2, ?_⟩
  have happ : replayModeOps (ops ++ [ModeOp.leave]) (initPanState d0)
      = disableMultiselect (replayModeOps ops (initPanState d0)) := by
    simp [replayModeOps, List.foldl_append]
  rw [happ]
  exact (panInv_disable hinv).2.1 (disable_clears_flag _)

/-- Witness for C8: enter twice, leave twice from an enabled surface ends
enabled; a single enter leaves panning disabled. -/
theorem C8_pan_restore_witness :
    (replayModeOps [ModeOp.enter, ModeOp.enter, ModeOp.leave, ModeOp.leave]
      (initPanState true)).drag = true
    ∧ (replayModeOps [ModeOp.enter] (initPanState true)).drag = false :=
  ⟨(C8_pan_restore true [ModeOp.enter, ModeOp.enter, ModeOp.leave]).2.2.2,
    (C8_pan_restore true [ModeOp.enter]).2.2.1 (by decide)⟩

/-- Counterexample to C2 as stated: a surviving deletable block with an
output connection is disposed with `dispose(false, true)` — that is,
without stack healing — not with healing as the claim says. -/
theorem C2_counterexample :
    deleteApply emptySel cexDeleteBlock
      = some (Disposal.blockDispose "b1" false true)
    ∧ cexDeleteBlock.outputConnection = true
    ∧ deleteCheck emptySel cexDeleteBlock = true
    ∧ ¬ deleteApply emptySel cexDeleteBlock
        = some (Disposal.blockDispose "b1" true true) := by
  refine ⟨rfl, rfl, rfl, ?_⟩
  decide

/-- C2 (amended): every surviving delete candidate is disposed with
`healStack` equal to the NEGATION of its output-connection flag — an
output-style block is disposed without healing and a statement-style block
with stack healing — both in the context-menu delete and in the shortcut
delete (where comments get a plain dispose). -/
theorem C2_delete_dispose_modes (sel : Selection) (subs : List DeleteCandidate) :
    deleteCallbackCalls sel subs = subs.filterMap (fun b =>
      if b.isBlock && deleteCheck sel b then
        some (Disposal.blockDispose b.id (!b.outputConnection) true)
      else none)
    ∧ ∀ b : DeleteCandidate, shortcutDeleteApply sel b =
        (if shortcutDeleteCheck sel b then
          some (if b.isBlock then
                  Disposal.blockDispose b.id (!b.outputConnection) true
                else Disposal.plainDispose b.id)
        else none) := by
  constructor
  · unfold deleteCallbackCalls
    apply List.filterMap_congr
    intro b _
    unfold deleteApply
    cases hb : b.isBlock <;> cases hc : deleteCheck sel b <;>
      cases ho : b.outputConnection <;> simp [hb, hc, ho]
  · intro b
    unfold shortcutDeleteApply
    cases hc : shortcutDeleteCheck sel b <;> cases hb : b.isBlock <;>
      cases ho : b.outputConnection <;> simp [hc, hb, ho]

/-- Counterexample to C7 as stated: with a member disposed mid-drag the
composite `revertDrag` forwards the revert to the disposed member instead
of skipping it, so the member-level failure propagates and the whole
revert fails. -/
theorem C7_counterexample :
    compositeRevertDrag cexRevertMembers
      = Except.error "revertDrag on disposed member"
    ∧ (∃ m ∈ cexRevertMembers, m.disposed = true) := by
  exact ⟨rfl, by decide⟩

/-- C7 (amended): `revertDrag` forwards revert to every member with no
disposed-member guard: when no member has been disposed every member is
restored to its pre-drag position, and when some member has been disposed
the member-level failure propagates out of the composite revert. -/
theorem C7_revertDrag_behaviour (ms : List CompMember) :
    ((∀ m ∈ ms, m.disposed = false) →
      compositeRevertDrag ms
        = Except.ok (ms.map (fun m => { m with pos := m.preDragPos })))
    ∧ ((∃ m ∈ ms, m.disposed = true) →
      ∃ e, compositeRevertDrag ms = Except.error e) := by
  induction ms with
  | nil =>
    constructor
    · intro _; simp [compositeRevertDrag]
    · rintro ⟨x, hx, _⟩; simp at hx
  | cons m rest ih =>
    constructor
    · intro h
      have hm : m.disposed = false := h m (List.mem_cons_self m rest)
      have hrest := ih.1 (fun x hx => h x (List.mem_cons_of_mem m hx))
      simp [compositeRevertDrag, memberRevertDrag, hm, hrest]
    · rintro ⟨x, hx, hdisp⟩
      rcases List.mem_cons.mp hx with h1 | h2
      · subst h1
        exact ⟨"revertDrag on disposed member",
          by simp [compositeRevertDrag, memberRevertDrag, hdisp]⟩
      · cases hmd : m.disposed with
        | true =>
          exact ⟨"revertDrag on disposed member",
            by simp [compositeRevertDrag, memberRevertDrag, hmd]⟩
        | false =>
          obtain ⟨e, he⟩ := ih.2 ⟨x, h2, hdisp⟩
          exact ⟨e, by simp [compositeRevertDrag, memberRevertDrag, hmd, he]⟩

/-- Witness for C7 (amended) on a single live member. -/
theorem C7_revertDrag_behaviour_witness :
    compositeRevertDrag smpRevertMembers
      = Except.ok (smpRevertMembers.map (fun m => { m with pos := m.preDragPos })) :=
  (C7_revertDrag_behaviour smpRevertMembers).1 (by decide)

/-- Counterexample to C9 as stated: a composite holding one member that is
not individually deletable keeps that member after `dispose()`, so the
membership is not left empty. -/
theorem C9_counterexample :
    (compositeDispose cexDisposeMembers ["a"]).1 = cexDisposeMembers
    ∧ cexDisposeMembers ≠ [] := by
  exact ⟨rfl, by decide⟩

/-- C9 (amended): composite `dispose()` disposes every individually
deletable member (blocks via `dispose(true, true)`, comments via plain
`dispose()`), removes each such member from the composite and the drag
selection, and leaves exactly the non-deletable members in the composite
— so membership ends empty iff every member was deletable. -/
theorem C9_dispose_behaviour (ms : List CompMember) (sel : List String) :
    (compositeDispose ms sel).1 = ms.filter (fun m => !m.deletable)
    ∧ (compositeDispose ms sel).2.2 = ms.filterMap (fun m =>
        if m.deletable then
          some (if m.isBlock then Disposal.blockDispose m.id true true
                else Disposal.plainDispose m.id)
        else none)
    ∧ (compositeDispose ms sel).2.1
        = (ms.filter (fun m => m.deletable)).foldl (fun t m => jsSetDelete t m.id) sel
    ∧ ((compositeDispose ms sel).1 = [] ↔ ∀ m ∈ ms, m.deletable = true) := by
  have main : ∀ (ms : List CompMember) (sel : List String),
      (compositeDispose ms sel).1 = ms.filter (fun m => !m.deletable)
      ∧ (compositeDispose ms sel).2.2 = ms.filterMap (fun m =>
          if m.deletable then
            some (if m.isBlock then Disposal.blockDispose m.id true true
                  else Disposal.plainDispose m.id)
          else none)
      ∧ (compositeDispose ms sel).2.1
          = (ms.filter (fun m => m.deletable)).foldl
              (fun t m => jsSetDelete t m.id) sel := by
    intro ms
    induction ms with
    | nil => intro sel; simp [compositeDispose]
    | cons m rest ih =>
      intro sel
      cases hd : m.deletable with
      | false =>
        obtain ⟨ih1, ih2, ih3⟩ := ih sel
        simp [compositeDispose, hd, ih1, ih2, ih3]
      | true =>
        obtain ⟨ih1, ih2, ih3⟩ := ih (jsSetDelete sel m.id)
        simp [compositeDispose, hd, ih1, ih2, ih3]
  obtain ⟨h1, h2, h3⟩ := main ms sel
  refine ⟨h1, h2, h3, ?_⟩
  rw [h1]
  constructor
  · intro hnil m hm
    by_contra hmd
    have : m ∈ ms.filter (fun m => !m.deletable) := by
      simp [List.mem_filter, hm]
      simpa using hmd
    simp [hnil] at this
  · intro hall
    apply List.filter_eq_nil_iff.mpr
    intro m hm
    simp [hall m hm]

/-- Witness for C9 (amended): with every member deletable the composite
ends empty. -/
theorem C9_dispose_behaviour_witness :
    (compositeDispose smpDisposeMembers ["a"]).1 = [] :=
  (C9_dispose_behaviour smpDisposeMembers ["a"]).2.2.2.mpr (by decide)

/-- Appending a fresh element to a list inserts it into the finset. -/
theorem toFinset_append_singleton (l : List String) (x : String) :
    (l ++ [x]).toFinset = insert x l.toFinset := by
  ext a
  simp [or_comm]

/-- Erasing from a duplicate-free list erases from its finset. -/
theorem toFinset_erase_of_nodup {l : List String} (h : l.Nodup) (x : String) :
    (l.erase x).toFinset = l.toFinset.erase x := by
  ext a
  simp [h.mem_erase_iff, and_comm]

/-- Symmetric difference with a present singleton is erasure. -/
theorem symmDiff_singleton_mem {t : Finset String} {x : String} (h : x ∈ t) :
    symmDiff t {x} = t.erase x := by
  ext a
  simp only [Finset.mem_symmDiff, Finset.mem_singleton, Finset.mem_erase]
  constructor
  · rintro (⟨ha, hne⟩ | ⟨rfl, hna⟩)
    · exact ⟨hne, ha⟩
    · exact absurd h hna
  · rintro ⟨hne, ha⟩
    exact Or.inl ⟨ha, hne⟩

/-- Symmetric difference with an absent singleton is insertion. -/
theorem symmDiff_singleton_not_mem {t : Finset String} {x : String}
    (h : x ∉ t) : symmDiff t {x} = insert x t := by
  ext a
  simp only [Finset.mem_symmDiff, Finset.mem_singleton, Finset.mem_insert]
  constructor
  · rintro (⟨ha, _⟩ | ⟨rfl, _⟩)
    · exact Or.inr ha
    · exact Or.inl rfl
  · rintro (rfl | ha)
    · exact Or.inr ⟨rfl, h⟩
    · exact Or.inl ⟨ha, fun hax => h (hax ▸ ha)⟩

/-- On a capability-passing draggable, `updateDraggables_` toggles the id
in the drag selection. -/
theorem updateDraggables_capable (s : ControlsState) (d : DraggableItem)
    (hc : capabilityPassing d = true) :
    (updateDraggables s (some d)).dragSelection =
      if d.id ∈ s.dragSelection then s.dragSelection.erase d.id
      else s.dragSelection ++ [d.id] := by
  rcases d with ⟨id, isB, del, mov, sh, ty⟩
  cases isB <;> cases del <;> cases mov <;> cases sh <;>
    by_cases hty : ty == "drag_to_dupe" <;>
    by_cases hx : id ∈ s.dragSelection <;>
    simp_all [capabilityPassing, updateDraggables, jsSetAdd, jsSetDelete]

/-- A toggle step keeps the selection duplicate-free. -/
theorem toggle_nodup {l : List String} (h : l.Nodup) (x : String) :
    (if x ∈ l then l.erase x else l ++ [x]).Nodup := by
  by_cases hx : x ∈ l
  · simpa [hx] using h.erase x
  · simp [hx, List.nodup_append, h]

/-- Replaying capability-passing toggles agrees with the spec-side
symmetric-difference replay and keeps the selection duplicate-free. -/
theorem replayToggles_spec (s : ControlsState) (ds : List DraggableItem)
    (hnd : s.dragSelection.Nodup)
    (hcap : ∀ d ∈ ds, capabilityPassing d = true) :
    (replayToggles s ds).dragSelection.toFinset
      = specToggleReplay s.dragSelection.toFinset (ds.map DraggableItem.id)
    ∧ (replayToggles s ds).dragSelection.Nodup := by
  induction ds generalizing s with
  | nil => exact ⟨rfl, hnd⟩
  | cons d rest ih =>
    have hc := hcap d (List.mem_cons_self d rest)
    have hstep := updateDraggables_capable s d hc
    have hnd2 : (updateDraggables s (some d)).dragSelection.Nodup := by
      rw [hstep]; exact toggle_nodup hnd d.id
    have hfin : (updateDraggables s (some d)).dragSelection.toFinset
        = specToggle s.dragSelection.toFinset d.id := by
      rw [hstep]
      unfold specToggle
      by_cases hx : d.id ∈ s.dragSelection
      · rw [if_pos hx, toFinset_erase_of_nodup hnd,
          symmDiff_singleton_mem (by simpa using hx)]
      · rw [if_neg hx, toFinset_append_singleton,
          symmDiff_singleton_not_mem (by simpa using hx)]
    have hrec := ih (updateDraggables s (some d)) hnd2
      (fun x hx => hcap x (List.mem_cons_of_mem d hx))
    have hfold : replayToggles s (d :: rest)
        = replayToggles (updateDraggables s (some d)) rest := rfl
    refine ⟨?_, by rw [hfold]; exact hrec.2⟩
    rw [hfold, hrec.1, hfin]
    rfl

/-- Spec-side toggles of two identifiers commute. -/
theorem specToggle_comm (t : Finset String) (a b : String) :
    specToggle (specToggle t a) b = specToggle (specToggle t b) a := by
  unfold specToggle
  rw [symmDiff_assoc, symmDiff_assoc, symmDiff_comm ({a} : Finset String)]

/-- The spec-side replay is invariant under permuting the toggles. -/
theorem specToggleReplay_perm {ids1 ids2 : List String}
    (h : ids1.Perm ids2) (t : Finset String) :
    specToggleReplay t ids1 = specToggleReplay t ids2 := by
  induction h generalizing t with
  | nil => rfl
  | cons x _ ih => exact ih (specToggle t x)
  | swap x y l =>
    show specToggleReplay (specToggle (specToggle t y) x) l
      = specToggleReplay (specToggle (specToggle t x) y) l
    rw [specToggle_comm]
  | trans _ _ ih1 ih2 => rw [ih1, ih2]

/-- C4: replaying any sequence of `toggleMember` calls over capability-
passing selectables yields exactly the symmetric-difference replay of
their identifiers; the selection stays duplicate-free (an identifier
appears at most once); and the resulting set is order-independent. -/
theorem C4_toggle_symmdiff (s : ControlsState) (ds : List DraggableItem)
    (hnd : s.dragSelection.Nodup)
    (hcap : ∀ d ∈ ds, capabilityPassing d = true) :
    (replayToggles s ds).dragSelection.toFinset
      = specToggleReplay s.dragSelection.toFinset (ds.map DraggableItem.id)
    ∧ (replayToggles s ds).dragSelection.Nodup
    ∧ ∀ ds2 : List DraggableItem, ds2.Perm ds →
        (replayToggles s ds2).dragSelection.toFinset
          = (replayToggles s ds).dragSelection.toFinset := by
  obtain ⟨h1, h2⟩ := replayToggles_spec s ds hnd hcap
  refine ⟨h1, h2, ?_⟩
  intro ds2 hperm
  have hcap2 : ∀ d ∈ ds2, capabilityPassing d = true :=
    fun d hd => hcap d (hperm.mem_iff.mp hd)
  obtain ⟨h1b, _⟩ := replayToggles_spec s ds2 hnd hcap2
  rw [h1b, h1]
  exact specToggleReplay_perm (hperm.map DraggableItem.id) _

/-- Witness for C4: toggling `a`, `b`, `a` from the empty selection. -/
theorem C4_toggle_symmdiff_witness :
    (replayToggles smpCtl [smpTogA, smpTogB, smpTogA]).dragSelection.toFinset
      = specToggleReplay smpCtl.dragSelection.toFinset
          ([smpTogA, smpTogB, smpTogA].map DraggableItem.id) :=
  (C4_toggle_symmdiff smpCtl [smpTogA, smpTogB, smpTogA]
    (by decide) (by decide)).1

/-- Coordinate arithmetic: summing with the origin on the left. -/
theorem coord_zero_sum (d : Coordinate) : Coordinate.sum ⟨0, 0⟩ d = d := by
  cases d with
  | mk x y => simp [Coordinate.sum]

/-- Coordinate arithmetic: subtracting the origin. -/
theorem coord_sub_zero (a : Coordinate) : Coordinate.sub a ⟨0, 0⟩ = a := by
  cases a with
  | mk x y => simp [Coordinate.sub]

/-- Coordinate arithmetic: the delta of a summed target. -/
theorem coord_sub_sum (n p : Coordinate) :
    Coordinate.sub (Coordinate.sum n p) p = n := by
  cases n with
  | mk nx ny =>
    cases p with
    | mk px py => simp [Coordinate.sum, Coordinate.sub]

/-- Coordinate arithmetic: offsets are preserved by a common summand. -/
theorem coord_sub_sum_sum (n p q : Coordinate) :
    Coordinate.sub (Coordinate.sum n p) (Coordinate.sum n q)
      = Coordinate.sub p q := by
  cases n with
  | mk nx ny =>
    cases p with
    | mk px py =>
      cases q with
      | mk qx qy =>
        simp [Coordinate.sum, Coordinate.sub]

/-- A `filterMap` that always succeeds is a `map`. -/
theorem filterMap_eq_map_of_forall {α β : Type} (l : List α) (f : α → Option β)
    (g : α → β) (h : ∀ a ∈ l, f a = some (g a)) : l.filterMap f = l.map g := by
  induction l with
  | nil => rfl
  | cons a rest ih =>
    rw [List.filterMap_cons_some (h a (List.mem_cons_self a rest)),
      List.map_cons, ih (fun x hx => h x (List.mem_cons_of_mem a hx))]

/-- Looking a member up in the refreshed snapshot map returns its own
current position, provided member ids are duplicate-free. -/
theorem find_snapshot :
    ∀ (members : List (DragMember × Coordinate)) (m : DragMember)
      (c0 : Coordinate),
      (members.map (fun p => p.1.id)).Nodup →
      (m, c0) ∈ members →
      (members.map (fun p => (p.1, p.1.pos))).find? (fun p => p.1.id == m.id)
        = some (m, m.pos)
  | [], m, c0, _, hm => by simp at hm
  | a :: rest, m, c0, hnd, hm => by
    rw [List.map_cons]
    rcases List.mem_cons.mp hm with h1 | h2
    · have ha : a.1 = m := by rw [← h1]
      rw [List.find?_cons_of_pos]
      · rw [ha]
      · simp [ha]
    · have hnd2 : (a.1.id :: rest.map (fun p => p.1.id)).Nodup := by
        rw [List.map_cons] at hnd; exact hnd
      have hnodup := List.nodup_cons.mp hnd2
      have hne : (a.1.id == m.id) = false := by
        have hmem : m.id ∈ rest.map (fun p => p.1.id) :=
          List.mem_map.mpr ⟨(m, c0), h2, rfl⟩
        simp only [beq_eq_false_iff_ne, ne_eq]
        intro hcontra
        exact hnodup.1 (hcontra ▸ hmem)
      rw [List.find?_cons_of_neg]
      · exact find_snapshot rest m c0 hnodup.2 h2
      · simp [hne]

/-- Every member `startDrag` classifies as top-level is one of the
composite's members. -/
theorem mem_tops_sub {sel : Selection} {grp : Bool} {s : MDragState}
    {m : DragMember} (htop : s.topSubDraggables = [])
    (hm : m ∈ (MDragState.startDrag sel grp s).topSubDraggables) :
    ∃ c, (m, c) ∈ s.subDraggables := by
  have hmem : m ∈ s.subDraggables.filterMap (fun p =>
      if p.1.isBlock then
        (if walkSelectedChain sel p.1.parentChain then none else some p.1)
      else some p.1) := by
    simpa [MDragState.startDrag, htop] using hm
  obtain ⟨p, hp, hsome⟩ := List.mem_filterMap.mp hmem
  have hpm : p.1 = m := by
    by_cases hb : p.1.isBlock <;>
      by_cases hw : walkSelectedChain sel p.1.parentChain <;>
      simp_all
  exact ⟨p.2, by rw [← hpm]; simpa using hp⟩

/-- After `startDrag`, the `drag` forwarding is exactly a map over the
top-level members sending each to `newLoc + snapshot`. -/
theorem drag_calls_eq (sel : Selection) (grp : Bool) (s : MDragState)
    (newLoc : Coordinate) (htop : s.topSubDraggables = [])
    (hnd : s.memberIds.Nodup) :
    (MDragState.startDrag sel grp s).drag newLoc
      = (MDragState.startDrag sel grp s).topSubDraggables.map
          (fun m => (m, Coordinate.sum newLoc m.pos)) := by
  unfold MDragState.drag
  apply filterMap_eq_map_of_forall
  intro m hm
  obtain ⟨c, hc⟩ := mem_tops_sub htop hm
  have hsubs : (MDragState.startDrag sel grp s).subDraggables
      = s.subDraggables.map (fun p => (p.1, p.1.pos)) := rfl
  rw [hsubs, find_snapshot s.subDraggables m c hnd hc]

/-- C1: on a composite whose own location is the origin, each
`drag(newAbsolutePosition)` call forwards every top-level member to
`newAbsolutePosition + (member snapshot − composite anchor snapshot)`;
hence after `startDrag` → `drag(Δ)` every top-level member (and, by the
host's rigid attached-child motion, every child attached to it) is
translated by exactly `Δ`, and every pair of dragged members keeps its
pre-drag relative offset. -/
theorem C1_drag_rigid_translation (sel : Selection) (grp : Bool)
    (s : MDragState) (delta : Coordinate) (hloc : s.loc = ⟨0, 0⟩)
    (htop : s.topSubDraggables = []) (hnd : s.memberIds.Nodup) :
    ((MDragState.startDrag sel grp s).drag (hostNewLoc s delta)
        = (MDragState.startDrag sel grp s).topSubDraggables.map
            (fun m => (m, Coordinate.sum (hostNewLoc s delta) m.pos)))
    ∧ (∀ p ∈ (MDragState.startDrag sel grp s).drag (hostNewLoc s delta),
        p.2 = Coordinate.sum (hostNewLoc s delta)
          (Coordinate.sub p.1.pos s.loc))
    ∧ (∀ p ∈ (MDragState.startDrag sel grp s).drag (hostNewLoc s delta),
        Coordinate.sub p.2 p.1.pos = delta)
    ∧ (∀ p ∈ (MDragState.startDrag sel grp s).drag (hostNewLoc s delta),
        ∀ q ∈ (MDragState.startDrag sel grp s).drag (hostNewLoc s delta),
          Coordinate.sub p.2 q.2 = Coordinate.sub p.1.pos q.1.pos)
    ∧ (∀ p ∈ (MDragState.startDrag sel grp s).drag (hostNewLoc s delta),
        ∀ c : Coordinate,
          hostAttachedPos c p.1.pos p.2 = Coordinate.sum c delta)
    ∧ (∀ m ∈ (MDragState.startDrag sel grp s).topSubDraggables,
        (m, Coordinate.sum (hostNewLoc s delta) m.pos)
          ∈ (MDragState.startDrag sel grp s).drag (hostNewLoc s delta)) := by
  have hdelta : hostNewLoc s delta = delta := by
    rw [hostNewLoc, hloc, coord_zero_sum]
  have hcalls := drag_calls_eq sel grp s (hostNewLoc s delta) htop hnd
  have hshape : ∀ p ∈ (MDragState.startDrag sel grp s).drag (hostNewLoc s delta),
      p.2 = Coordinate.sum (hostNewLoc s delta) p.1.pos := by
    intro p hp
    rw [hcalls] at hp
    obtain ⟨m, _, hpm⟩ := List.mem_map.mp hp
    rw [← hpm]
  refine ⟨hcalls, ?_, ?_, ?_, ?_, ?_⟩
  · intro p hp
    rw [hshape p hp, hloc, coord_sub_zero]
  · intro p hp
    rw [hshape p hp, coord_sub_sum, hdelta]
  · intro p hp q hq
    rw [hshape p hp, hshape q hq, coord_sub_sum_sum]
  · intro p hp c
    have hd : Coordinate.sub p.2 p.1.pos = delta := by
      rw [hshape p hp, coord_sub_sum, hdelta]
    rw [hostAttachedPos, hd]
  · intro m hm
    rw [hcalls]
    exact List.mem_map.mpr ⟨m, hm, rfl⟩

/-- Witness for C1: a three-member composite (parent, its selected stack
child, an independent sibling) dragged by `Δ = (5, 7)`; the parent's drag
target is offset from its snapshot by exactly `Δ`. -/
theorem C1_drag_rigid_translation_witness :
    Coordinate.sub
      (Coordinate.sum (hostNewLoc c1state ⟨5, 7⟩) c1memP.pos) c1memP.pos
      = ⟨5, 7⟩ :=
  (C1_drag_rigid_translation c1sel true c1state ⟨5, 7⟩ rfl rfl
      (by decide)).2.2.1
    (c1memP, Coordinate.sum (hostNewLoc c1state ⟨5, 7⟩) c1memP.pos)
    ((C1_drag_rigid_translation c1sel true c1state ⟨5, 7⟩ rfl rfl
        (by decide)).2.2.2.2.2 c1memP (by decide))

/-- A successful `getBlockById` returns a member with the queried id. -/
theorem getBlockById_some {ws : List FieldBlock} {id : String}
    {b : FieldBlock} (h : getBlockById ws id = some b) :
    b ∈ ws ∧ b.id = id := by
  refine ⟨List.mem_of_find?_eq_some h, ?_⟩
  have hp := List.find?_some h
  simpa using hp

/-- A failed `getBlockById` means no member carries the queried id. -/
theorem getBlockById_none {ws : List FieldBlock} {id : String}
    (h : getBlockById ws id = none) : ∀ c ∈ ws, (c.id == id) = false := by
  intro c hc
  have hp := List.find?_eq_none.mp h c hc
  simpa using hp

/-- With duplicate-free ids, blocks are determined by their id. -/
theorem nodup_id_unique {ws : List FieldBlock}
    (hnd : (ws.map FieldBlock.id).Nodup) :
    ∀ b ∈ ws, ∀ c ∈ ws, b.id = c.id → b = c := by
  induction ws with
  | nil => intro b hb; simp at hb
  | cons a rest ih =>
    rw [List.map_cons] at hnd
    have h2 := List.nodup_cons.mp hnd
    intro b hb c hc heq
    rcases List.mem_cons.mp hb with hba | hb2
    · rcases List.mem_cons.mp hc with hca | hc2
      · rw [hba, hca]
      · exfalso
        apply h2.1
        rw [← hba, heq]
        exact List.mem_map.mpr ⟨c, hc2, rfl⟩
    · rcases List.mem_cons.mp hc with hca | hc2
      · exfalso
        apply h2.1
        rw [← hca, ← heq]
        exact List.mem_map.mpr ⟨b, hb2, rfl⟩
      · exact ih h2.2 b hb2 c hc2 heq

/-- Shape of a successful `setFieldValue`. -/
theorem setFieldValue_ok {b b2 : FieldBlock} {nv fn : String}
    (h : setFieldValue b nv fn = Except.ok b2) :
    b2 = { b with fields :=
        b.fields.map (fun p => if p.1 == fn then (p.1, nv) else p) }
    ∧ b.fields.any (fun p => p.1 == fn) = true := by
  unfold setFieldValue at h
  by_cases ha : b.fields.any (fun p => p.1 == fn)
  · simp only [ha, if_true] at h
    refine ⟨?_, ha⟩
    injection h with h
    exact h.symm
  · simp [ha] at h

/-- `updateBlock` never changes the id column. -/
theorem updateBlock_ids (ws : List FieldBlock) (b2 : FieldBlock) :
    (updateBlock ws b2).map FieldBlock.id = ws.map FieldBlock.id := by
  unfold updateBlock
  rw [List.map_map]
  apply List.map_congr_left
  intro c _
  by_cases hc : (c.id == b2.id) = true
  · simp only [Function.comp_apply, hc, if_true]
    exact (beq_iff_eq.mp hc).symm
  · have hne : ¬ c.id = b2.id := by simpa using hc
    simp [Function.comp_apply, hne]

/-- Prepending a non-matching element does not change `contains`. -/
theorem contains_cons_ne {l : List String} {a b : String}
    (h : (b == a) = false) : (a :: l).contains b = l.contains b := by
  show (b == a || l.contains b) = l.contains b
  rw [h, Bool.false_or]

/-- When the propagation loop finishes without throwing, the workspace it
produces is exactly the spec-side `propagatedWorkspace`. -/
theorem propagateLoop_noAbort (origId ty fname nv : String) :
    ∀ (ids : List String) (ws : List FieldBlock),
      (ws.map FieldBlock.id).Nodup → ids.Nodup →
      (propagateLoop origId ty fname nv ids ws).2 = false →
      (propagateLoop origId ty fname nv ids ws).1
        = propagatedWorkspace origId ty fname nv ids ws
  | [], ws, _, _, _ => by
    simp [propagateLoop, propagatedWorkspace]
  | id :: rest, ws, hndws, hndids, hok => by
    have hrest_nd : rest.Nodup := (List.nodup_cons.mp hndids).2
    have hid_notin : id ∉ rest := (List.nodup_cons.mp hndids).1
    by_cases hskip : (id == origId) = true
    · have hloop : propagateLoop origId ty fname nv (id :: rest) ws
          = propagateLoop origId ty fname nv rest ws := by
        simp [propagateLoop, hskip]
      rw [hloop] at hok ⊢
      rw [propagateLoop_noAbort origId ty fname nv rest ws hndws hrest_nd hok]
      unfold propagatedWorkspace
      apply List.map_congr_left
      intro b _
      by_cases hb : (b.id == id) = true
      · have hbo : (b.id == origId) = true := by
          rw [beq_iff_eq.mp hb, beq_iff_eq.mp hskip]
          simp
        simp [hbo]
      · have hbf : (b.id == id) = false := by simpa using hb
        rw [contains_cons_ne hbf]
    · have hskipf : (id == origId) = false := by simpa using hskip
      cases hfind : getBlockById ws id with
      | none =>
        have hloop : propagateLoop origId ty fname nv (id :: rest) ws
            = propagateLoop origId ty fname nv rest ws := by
          simp [propagateLoop, hskipf, hfind]
        rw [hloop] at hok ⊢
        rw [propagateLoop_noAbort origId ty fname nv rest ws hndws hrest_nd hok]
        unfold propagatedWorkspace
        apply List.map_congr_left
        intro b hb
        have hbid : (b.id == id) = false := getBlockById_none hfind b hb
        rw [contains_cons_ne hbid]
      | some bf =>
        obtain ⟨hbf_mem, hbf_id⟩ := getBlockById_some hfind
        by_cases htype : (bf.btype == ty) = true
        · cases hset : setFieldValue bf nv fname with
          | error err =>
            exfalso
            have habort : (propagateLoop origId ty fname nv (id :: rest) ws).2
                = true := by
              simp [propagateLoop, hskipf, hfind, htype, hset]
            rw [habort] at hok
            simp at hok
          | ok b2 =>
            obtain ⟨hb2eq, hany⟩ := setFieldValue_ok hset
            have hloop : propagateLoop origId ty fname nv (id :: rest) ws
                = propagateLoop origId ty fname nv rest (updateBlock ws b2) := by
              simp [propagateLoop, hskipf, hfind, htype, hset]
            rw [hloop] at hok ⊢
            have hnd2 : ((updateBlock ws b2).map FieldBlock.id).Nodup := by
              rw [updateBlock_ids]; exact hndws
            rw [propagateLoop_noAbort origId ty fname nv rest _ hnd2 hrest_nd hok]
            have hb2id : b2.id = id := by rw [hb2eq]; exact hbf_id
            unfold propagatedWorkspace updateBlock
            rw [List.map_map]
            apply List.map_congr_left
            intro c hc
            by_cases hcid : (c.id == b2.id) = true
            · have hcbf : c = bf :=
                nodup_id_unique hndws c hc bf hbf_mem
                  (by rw [beq_iff_eq.mp hcid, hb2id, hbf_id])
              have h1 : (rest.contains b2.id) = false := by
                rw [hb2id]
                simpa using hid_notin
              simp only [Function.comp_apply]
              rw [if_pos hcid]
              have hcondL : (!(b2.id == origId) && rest.contains b2.id
                  && (b2.btype == ty)
                  && b2.fields.any (fun p => p.1 == fname)) = false := by
                rw [h1]
                simp
              have hcondR : (!(c.id == origId) && (id :: rest).contains c.id
                  && (c.btype == ty)
                  && c.fields.any (fun p => p.1 == fname)) = true := by
                rw [hcbf, hbf_id]
                show (!(id == origId)
                  && ((id == id || rest.contains id))
                  && (bf.btype == ty)
                  && bf.fields.any (fun p => p.1 == fname)) = true
                simp [hskipf, htype, hany]
              rw [hcondL, hcondR]
              simp only [Bool.false_eq_true, if_false, if_true]
              rw [hcbf, hb2eq]
            · have hcnid : (c.id == id) = false := by
                rw [← hb2id]
                simpa using hcid
              simp only [Function.comp_apply]
              rw [if_neg hcid, contains_cons_ne hcnid]
        · have hloop : propagateLoop origId ty fname nv (id :: rest) ws
              = propagateLoop origId ty fname nv rest ws := by
            simp [propagateLoop, hskipf, hfind, htype]
          rw [hloop] at hok ⊢
          rw [propagateLoop_noAbort origId ty fname nv rest ws hndws hrest_nd hok]
          unfold propagatedWorkspace
          apply List.map_congr_left
          intro b hb
          by_cases hbid : (b.id == id) = true
          · have hbbf : b = bf :=
              nodup_id_unique hndws b hb bf hbf_mem
                (by rw [beq_iff_eq.mp hbid, hbf_id])
            have hbtype : (b.btype == ty) = false := by
              rw [hbbf]; simpa using htype
            have hnotrest : (rest.contains b.id) = false := by
              rw [beq_iff_eq.mp hbid]
              simpa using hid_notin
            simp [hbtype, hnotrest]
          · have hbf2 : (b.id == id) = false := by simpa using hbid
            rw [contains_cons_ne hbf2]

/-- Counterexample to C5 as stated: with selection `{x, y, z}` all of type
`T`, where `y` lacks field `f`, the propagation triggered by editing `f`
on `x` throws at `y`; the error is caught and logged (`warned`), but the
remaining member `z` — same type, present, field intact — is NOT updated:
the failure aborts propagation to the remaining members. -/
theorem C5_counterexample :
    (eventListener "g1" cexFieldState cexFieldEvent).warned = true
    ∧ fieldValueOf (eventListener "g1" cexFieldState cexFieldEvent).workspace
        "z" "f" = some "old"
    ∧ fieldValueOf (eventListener "g1" cexFieldState cexFieldEvent).workspace
        "z" "f" ≠ some "new"
    ∧ (getBlockById cexFieldState.workspace "z").map FieldBlock.btype
        = (getBlockById cexFieldState.workspace "x").map FieldBlock.btype := by
  decide

/-- C5 (amended): when an undo-recorded field change on a selection member
passes the listener's guard, the prior event group is restored afterwards;
when no group was open the propagation runs in the same (fresh) group that
is stamped onto the originating event; an exception anywhere in the loop
is caught (the listener returns normally, with the warning exactly when
the loop threw); and when no exception occurs the resulting workspace is
exactly the spec-side propagation: every other selected member of the same
concrete type carrying the field holds the new value and every other block
is untouched.  Failures after a member abort the members that follow it;
members missing from the workspace are skipped without aborting. -/
theorem C5_field_propagation (freshGroup : String) (s : ListenerState)
    (e : ChangeEvent) (b0 : FieldBlock)
    (hguard : eventListenerGuard s e = true)
    (horig : getBlockById s.workspace e.blockId = some b0)
    (hndws : (s.workspace.map FieldBlock.id).Nodup)
    (hndsel : s.dragSelection.Nodup) :
    (eventListener freshGroup s e).groupAfter = s.eventsGroup
    ∧ (s.eventsGroup = none →
        (eventListener freshGroup s e).groupDuring
          = some (eventListener freshGroup s e).eventGroup)
    ∧ ((eventListener freshGroup s e).warned
        = (propagateLoop e.blockId b0.btype e.name e.newValue
            s.dragSelection s.workspace).2)
    ∧ ((eventListener freshGroup s e).warned = false →
        (eventListener freshGroup s e).workspace
          = propagatedWorkspace e.blockId b0.btype e.name e.newValue
              s.dragSelection s.workspace) := by
  have hunfold : eventListener freshGroup s e =
      { workspace := (propagateLoop e.blockId b0.btype e.name e.newValue
          s.dragSelection s.workspace).1
        warned := (propagateLoop e.blockId b0.btype e.name e.newValue
          s.dragSelection s.workspace).2
        groupDuring := match s.eventsGroup with
          | none => some freshGroup
          | some g => some g
        groupAfter := s.eventsGroup
        eventGroup := match s.eventsGroup with
          | none => freshGroup
          | some _ => e.group } := by
    unfold eventListener
    rw [if_pos hguard, horig]
  rw [hunfold]
  refine ⟨rfl, ?_, rfl, ?_⟩
  · intro hg
    rw [hg]
  · intro hw
    exact propagateLoop_noAbort e.blockId b0.btype e.name e.newValue
      s.dragSelection s.workspace hndws hndsel hw

/-- Witness for C5 (amended) on a concrete selection with a same-type and
a different-type member. -/
theorem C5_field_propagation_witness :
    (eventListener "g1" smpFieldState cexFieldEvent).workspace
      = propagatedWorkspace cexFieldEvent.blockId "T" cexFieldEvent.name
          cexFieldEvent.newValue smpFieldState.dragSelection
          smpFieldState.workspace :=
  (C5_field_propagation "g1" smpFieldState cexFieldEvent
      { id := "x", btype := "T", fields := [("f", "old")] }
      (by decide) (by decide) (by decide) (by decide)).2.2.2 (by decide)

/-- Counterexample to C6 as stated: a snapshot produced on surface `A`,
pasted via the context menu of the main workspace (a different surface
from `A`), keeps its serialized id — no fresh identifier is generated,
because the code keys the fresh-id decision on main-versus-invoking
workspace, not on the producing surface. -/
theorem C6_counterexample :
    pasteDestWs cexPasteEnv "main" cexPasteSnap ≠ cexPasteSnap.producedBy
    ∧ PasteOutcome.newId (pasteOne cexPasteEnv "main" cexPasteSnap)
        ≠ some cexPasteEnv.freshId
    ∧ pasteOne cexPasteEnv "main" cexPasteSnap
        = PasteOutcome.pastedBlock "main" "b1" true := by
  decide

/-- C6 (amended): paste clears the existing selection first and finally
sets the host's native selection to the composite; a snapshot is given a
fresh identifier exactly when the workspace the paste was invoked on is
not the main workspace; a snapshot is rejected exactly when it carries
type counts (is a block) and the destination lacks capacity for its type,
comments always pasting; and a pasted block is added to the selection and
the composite unless its type is `drag_to_dupe`. -/
theorem C6_paste_behaviour (env : PasteEnv) (scopeWs : String)
    (sel : List String) (snaps : List PasteSnapshot) :
    (pasteCallback env scopeWs sel snaps).clearedSelection = []
    ∧ (pasteCallback env scopeWs sel snaps).selectedComposite = true
    ∧ (pasteCallback env scopeWs sel snaps).outcomes
        = snaps.map (pasteOne env scopeWs)
    ∧ ∀ snap : PasteSnapshot,
        (pasteOne env scopeWs snap ≠ PasteOutcome.rejected →
          PasteOutcome.newId (pasteOne env scopeWs snap)
            = some (if scopeWs == env.mainWs then snap.stateId
                    else env.freshId))
        ∧ (snap.hasTypeCounts = snap.isBlock →
          (pasteOne env scopeWs snap = PasteOutcome.rejected ↔
            snap.isBlock = true ∧
              env.capacityOk (pasteDestWs env scopeWs snap) snap.btype
                = false))
        ∧ (∀ ws i a, pasteOne env scopeWs snap
            = PasteOutcome.pastedBlock ws i a →
              a = !(snap.btype == "drag_to_dupe")) := by
  refine ⟨?_, rfl, rfl, ?_⟩
  · cases sel <;> simp [pasteCallback, pasteClearStep]
  · intro snap
    unfold pasteOne
    by_cases hcap : (snap.hasTypeCounts
        && env.capacityOk (pasteDestWs env scopeWs snap) snap.btype) = true
    · rw [if_pos hcap]
      refine ⟨fun _ => rfl, ?_, ?_⟩
      · intro _
        rw [Bool.and_eq_true] at hcap
        constructor
        · intro hcontra
          exact absurd hcontra (by simp)
        · rintro ⟨_, hcapf⟩
          rw [hcap.2] at hcapf
          exact absurd hcapf (by simp)
      · intro ws i a ha
        injection ha with h1 h2 h3
        rw [← h3]
    · rw [if_neg hcap]
      cases hib : snap.isBlock with
      | false =>
        refine ⟨fun _ => rfl, ?_, ?_⟩
        · intro _
          constructor
          · intro hcontra
            simp at hcontra
          · rintro ⟨hcontra, _⟩
            exact absurd hcontra (by simp)
        · intro ws i a ha
          simp at ha
      | true =>
        have hcapf : env.capacityOk (pasteDestWs env scopeWs snap) snap.btype
            = false ∨ snap.hasTypeCounts = false := by
          cases hcv : env.capacityOk (pasteDestWs env scopeWs snap) snap.btype
          · exact Or.inl rfl
          · cases htc : snap.hasTypeCounts
            · exact Or.inr rfl
            · exact absurd (by rw [htc, hcv]; rfl) hcap
        refine ⟨?_, ?_, ?_⟩
        · intro hcontra
          exact absurd (by simp) hcontra
        · intro hbk
          constructor
          · intro _
            refine ⟨rfl, ?_⟩
            rcases hcapf with hcv | htc
            · exact hcv
            · rw [hbk] at htc
              exact absurd htc (by simp)
          · intro _
            simp
        · intro ws i a ha
          simp at ha

/-- Witness for C6 (amended): pasting the snapshot on a non-main surface
yields the fresh identifier. -/
theorem C6_paste_behaviour_witness :
    PasteOutcome.newId (pasteOne cexPasteEnv "other" cexPasteSnap)
      = some (if "other" == cexPasteEnv.mainWs then cexPasteSnap.stateId
              else cexPasteEnv.freshId) :=
  ((C6_paste_behaviour cexPasteEnv "other" [] [cexPasteSnap]).2.2.2
    cexPasteSnap).1 (by decide)

end WorkspaceMultiselect
